import Mathlib

/-
Verification of the chat-widget conversation engine in `src/app/page.tsx`.

The file shallowly embeds the dynamically-typed JavaScript values the widget
manipulates (`JsVal`), the inline response-normalization logic of
`handleSendMessage`, and the React component state of `ChatWidget`
(`WidgetState`), together with the event handlers `handleSendMessage`
(split at its `await` into a start phase and a completion phase, reflecting
that the completion runs the closure captured at submission time),
`handleAgentSwitch`, and the welcome-seeding `useEffect`.

Modelling conventions:
  - JavaScript strings are Lean `String`; `.trim()` is `jsStringTrim`
    (drop whitespace from both ends), since a thrown `TypeError` from
    calling `.trim()` on a non-string matters, `jsTrim` returns `Except`.
  - JS truthiness is `truthy`; `a ?? b` is `jsNullish`; `x?.f` is `optChain`.
  - Message ids are `Date.now()` values: the source stores their decimal
    string (`toString`), which is injective on numbers, so ids are `Nat`.
  - `feedback` is absent (`undefined`) on user messages and `null` on agent
    messages; both are `none` here (no claim distinguishes them).
  - Wall-clock reads (`Date.now()`, `new Date()`) are explicit `Nat`
    parameters of the handlers.
-/

namespace Chat

/-- A dynamically-typed JavaScript value, as produced by `response.json()`. -/
inductive JsVal where
  | vStr (s : String)
  | vNum (n : Int)
  | vBool (b : Bool)
  | vNull
  | vUndef
  | vArr (xs : List JsVal)
  | vObj (fields : List (String × JsVal))

open JsVal

/-- JS `typeof` (note `typeof null` and `typeof []` are both "object"). -/
def jsTypeof : JsVal → String
  | vStr _ => "string"
  | vNum _ => "number"
  | vBool _ => "boolean"
  | vNull => "object"
  | vUndef => "undefined"
  | vArr _ => "object"
  | vObj _ => "object"

/-- JS truthiness of a value. -/
def truthy : JsVal → Bool
  | vStr s => if s = "" then false else true
  | vNum n => if n = 0 then false else true
  | vBool b => b
  | vNull => false
  | vUndef => false
  | vArr _ => true
  | vObj _ => true

/-- Is the value `null` or `undefined` (the values `??` and `?.` test for). -/
def isNullish : JsVal → Bool
  | vNull => true
  | vUndef => true
  | _ => false

/-- JS nullish coalescing `a ?? b`. -/
def jsNullish (a b : JsVal) : JsVal := if isNullish a then b else a

/-- Property access `recv.f` on a receiver known to be non-nullish:
missing properties (and properties of primitives and arrays) are `undefined`. -/
def getField : JsVal → String → JsVal
  | vObj fields, f =>
    match fields.lookup f with
    | some v => v
    | none => vUndef
  | _, _ => vUndef

/-- Property access `recv.f` on an arbitrary receiver: throws on nullish. -/
def memberAccess (v : JsVal) (f : String) : Except Unit JsVal :=
  if isNullish v then Except.error () else Except.ok (getField v f)

/-- Optional chaining `recv?.f`. -/
def optChain (v : JsVal) (f : String) : JsVal :=
  if isNullish v then vUndef else getField v f

/-- JS `Array.isArray`. -/
def isArray : JsVal → Bool
  | vArr _ => true
  | _ => false

/-- Elements of an array value (only consulted after an `isArray` check). -/
def arrElems : JsVal → List JsVal
  | vArr xs => xs
  | _ => []

/-- Characters removed by `.trim()` (the whitespace the payloads here use). -/
def wsChar (c : Char) : Bool := c.isWhitespace

/-- Drop leading and trailing whitespace characters. -/
def trimChars (l : List Char) : List Char :=
  ((l.dropWhile wsChar).reverse.dropWhile wsChar).reverse

/-- JS `String.prototype.trim`. -/
def jsStringTrim (s : String) : String := String.mk (trimChars s.data)

/-- Calling `.trim()` on a value: a TypeError unless it is a string. -/
def jsTrim : JsVal → Except Unit String
  | vStr s => Except.ok (jsStringTrim s)
  | _ => Except.error ()

/-- A normalized agent reply: the shape the rest of the widget consumes. -/
structure NormalizedReply where
  text : String
  followups : List String
deriving DecidableEq, Repr

/-- The fixed fallback reply text of `handleSendMessage`. -/
def fallbackText : String :=
  "I understood your question. Please feel free to ask follow-up questions if you need more information."

/-- The fixed soft-backend-failure apology of `handleSendMessage`. -/
def softFailureText : String :=
  "I\x27m having trouble processing your question. Please try again."

/-- The fixed connectivity apology of the `catch` block of `handleSendMessage`. -/
def connFailureText : String :=
  "I\x27m having trouble connecting. Please try again later."

/-- JS `arr.filter(q => q && q.trim().length > 0)` over the raw entries:
falsy entries are dropped without calling `.trim()`; a truthy non-string
entry makes the whole filter throw. -/
def filterUsable : List JsVal → Except Unit (List String)
  | [] => Except.ok []
  | q :: rest =>
    if truthy q = true then
      match q with
      | vStr s =>
        match filterUsable rest with
        | Except.error e => Except.error e
        | Except.ok tail =>
          Except.ok (if 0 < (jsStringTrim s).length then s :: tail else tail)
      | _ => Except.error ()
    else filterUsable rest

/-- `data.response.sales_guidance?.main_response` of the source. -/
def salesMain (raw : JsVal) : JsVal :=
  optChain (getField raw "sales_guidance") "main_response"

/-- The `responseText` candidate chain of `handleSendMessage`, before the
final fallback check (the source mutates `responseText` through
`data.response`, `sales_guidance?.main_response`, `message ?? text ?? ...`,
each step guarded by JS truthiness of the value chosen so far). -/
def extractText (raw : JsVal) : JsVal :=
  if jsTypeof raw = "string" then raw
  else if truthy raw = true ∧ jsTypeof raw = "object" then
    let t1 := getField raw "response"
    let t2 := if truthy t1 = false ∧ truthy (salesMain raw) = true then salesMain raw else t1
    if truthy t2 = true then t2
    else jsNullish (getField raw "message")
      (jsNullish (getField raw "text")
        (if jsTypeof raw = "string" then raw else vStr ""))
  else vStr ""

/-- One follow-up candidate: used only when truthy and an array. -/
def followupsFrom (v : JsVal) : Except Unit (List String) :=
  if truthy v = true ∧ isArray v = true then filterUsable (arrElems v)
  else Except.ok []

/-- The `followups` extraction of `handleSendMessage`:
`suggested_followups` filtered, else `sales_guidance?.suggested_questions`
filtered, else `[]`; performed only in the object branch. -/
def extractFollowups (raw : JsVal) : Except Unit (List String) :=
  if jsTypeof raw = "string" then Except.ok []
  else if truthy raw = true ∧ jsTypeof raw = "object" then
    match followupsFrom (getField raw "suggested_followups") with
    | Except.error e => Except.error e
    | Except.ok f1 =>
      if f1.length = 0 then
        followupsFrom (optChain (getField raw "sales_guidance") "suggested_questions")
      else Except.ok f1
  else Except.ok []

/-- The inline normalization of `handleSendMessage` applied to
`data.response`: text-candidate chain, follow-up extraction, then the final
`!responseText || responseText.trim().length === 0` fallback check, storing
`responseText.trim()`. An `Except.error` is a thrown `TypeError`
(caught by the surrounding `catch` of the handler). -/
def normalize (raw : JsVal) : Except Unit NormalizedReply :=
  match extractFollowups raw with
  | Except.error e => Except.error e
  | Except.ok fw =>
    let rt := extractText raw
    if truthy rt = true then
      match jsTrim rt with
      | Except.error e => Except.error e
      | Except.ok s =>
        Except.ok { text := if s.length = 0 then jsStringTrim fallbackText else s
                    followups := fw }
    else Except.ok { text := jsStringTrim fallbackText, followups := fw }


/-- The two agent tabs of the widget. -/
inductive AgentKey where
  | support
  | sales
deriving DecidableEq, Repr

/-- The sender of a message. -/
inductive Sender where
  | user
  | agent
deriving DecidableEq, Repr

/-- Feedback on an agent message. -/
inductive Feedback where
  | up
  | down
deriving DecidableEq, Repr

/-- A chat message (`interface Message` of the source). Ids are the numeric
values whose decimal strings the source stores; `feedback` is `none` both
for an absent field (user messages) and for `null` (agent messages). -/
structure Message where
  id : Nat
  text : String
  sender : Sender
  timestamp : Nat
  feedback : Option Feedback
deriving DecidableEq, Repr

/-- Static configuration of one agent (`SUPPORT_AGENT_CONFIG` /
`SALES_AGENT_CONFIG` of the source, minus the purely visual fields). -/
structure AgentConfig where
  id : String
  name : String
  welcomeMessage : String
  suggestions : List String
deriving DecidableEq, Repr

def SUPPORT_AGENT_CONFIG : AgentConfig :=
  { id := "693050ee2bb6b2ddb363e3cb"
    name := "Support"
    welcomeMessage := "Hi there! I\x27m Amadeo Support Assistant. I\x27m here to answer any questions about Amadeo Banking AI Agent. You can ask me about features, capabilities, integrations, pricing, or use cases. What would you like to know?"
    suggestions := ["What is Amadeo?", "What are the key features?",
      "How does integration work?", "What use cases are supported?"] }

def SALES_AGENT_CONFIG : AgentConfig :=
  { id := "693053006faee4d469e8a424"
    name := "Sales"
    welcomeMessage := "Welcome! I\x27m your Amadeo Sales Copilot. I\x27m here to help you close more deals by providing sales strategies, objection handling, competitive positioning, and pitch preparation. How can I assist with your sales efforts today?"
    suggestions := ["How do I pitch Amadeo to a prospect?", "How do I handle common objections?",
      "What\x27s Amadeo\x27s competitive advantage?", "Can you help me prepare a sales deck?"] }

/-- `activeAgent === 'support' ? SUPPORT_AGENT_CONFIG : SALES_AGENT_CONFIG`. -/
def configOf : AgentKey → AgentConfig
  | AgentKey.support => SUPPORT_AGENT_CONFIG
  | AgentKey.sales => SALES_AGENT_CONFIG

/-- The `useState` atoms of `ChatWidget` that the conversation engine touches
(`unreadCount` and the input-focus ref are presentation-only and omitted).
Note `isLoading` and `suggestedQuestions` are single component-wide values,
exactly as in the source, not per-conversation ones. -/
structure WidgetState where
  isOpen : Bool
  activeAgent : AgentKey
  supportMessages : List Message
  salesMessages : List Message
  inputValue : String
  isLoading : Bool
  suggestedQuestions : List String
deriving DecidableEq, Repr

/-- The message log a given setter/getter pair is bound to. -/
def msgLog (k : AgentKey) (s : WidgetState) : List Message :=
  match k with
  | AgentKey.support => s.supportMessages
  | AgentKey.sales => s.salesMessages

/-- Calling the `setSupportMessages` / `setSalesMessages` setter bound to `k`. -/
def setLog (k : AgentKey) (l : List Message) (s : WidgetState) : WidgetState :=
  match k with
  | AgentKey.support => { s with supportMessages := l }
  | AgentKey.sales => { s with salesMessages := l }

/-- `setMessages(prev => [...prev, m])` through the setter bound to `k`. -/
def appendTo (k : AgentKey) (m : Message) (s : WidgetState) : WidgetState :=
  setLog k (msgLog k s ++ [m]) s

/-- The other tab. -/
def otherKey : AgentKey → AgentKey
  | AgentKey.support => AgentKey.sales
  | AgentKey.sales => AgentKey.support

/-- The initial `useState` values of `ChatWidget`. -/
def initialState : WidgetState :=
  { isOpen := false
    activeAgent := AgentKey.support
    supportMessages := []
    salesMessages := []
    inputValue := ""
    isLoading := false
    suggestedQuestions := SUPPORT_AGENT_CONFIG.suggestions }

/-- The welcome message seeded into an empty conversation (id `'1'`). -/
def welcomeMessageFor (c : AgentConfig) (t : Nat) : Message :=
  { id := 1, text := c.welcomeMessage, sender := Sender.agent, timestamp := t, feedback := none }

/-- The `useEffect` with dependencies `[isOpen, activeAgent]`: seed the
currently active conversation with its welcome message when the widget is
open and that conversation is empty. -/
def welcomeEffect (t : Nat) (s : WidgetState) : WidgetState :=
  if s.isOpen = true ∧ (msgLog s.activeAgent s).length = 0 then
    { setLog s.activeAgent [welcomeMessageFor (configOf s.activeAgent) t] s with
        suggestedQuestions := (configOf s.activeAgent).suggestions }
  else s

/-- Opening the widget (`setIsOpen(true)` followed by the effect). -/
def openWidget (t : Nat) (s : WidgetState) : WidgetState :=
  welcomeEffect t { s with isOpen := true }

/-- `handleAgentSwitch` of the source. Crucially, the `setMessages` it calls
is the binding of the render it closes over, i.e. the setter of the
PRE-switch `activeAgent` (`s.activeAgent`), not of the target `agent`:
`setActiveAgent(agent)` does not change the local `setMessages` constant. -/
def handleAgentSwitch (agent : AgentKey) (t : Nat) (s : WidgetState) : WidgetState :=
  let targetMessages := msgLog agent s
  let config := configOf agent
  let s1 := { s with activeAgent := agent }
  if targetMessages.length = 0 then
    { setLog s.activeAgent [welcomeMessageFor config t] s1 with
        suggestedQuestions := config.suggestions }
  else { s1 with suggestedQuestions := config.suggestions }

/-- A user-visible agent switch: the click handler plus the re-rendered
effect (the effect re-runs because `activeAgent` changed; when its guard
fails it is the identity, so composing it unconditionally is faithful). -/
def activate (agent : AgentKey) (t : Nat) (s : WidgetState) : WidgetState :=
  welcomeEffect t (handleAgentSwitch agent t s)

/-- The synchronous prefix of `handleSendMessage`, up to the `await`:
rejects when the trimmed text is falsy (empty); otherwise appends the user
message to the ACTIVE conversation, clears the input and the (single)
suggestion list, sets the (single) loading flag, and issues the transport
request. Returns the post-submit state together with the conversation key
and backend agent id captured by the closure for the completion phase;
`none` models the early `return`. Note: the source has no check of
`isLoading` here. -/
def handleSendMessageStart (messageText : String) (t : Nat) (s : WidgetState) :
    Option (WidgetState × AgentKey × String) :=
  if jsStringTrim messageText = "" then none
  else
    let userMessage : Message :=
      { id := t, text := messageText, sender := Sender.user, timestamp := t, feedback := none }
    some ({ appendTo s.activeAgent userMessage s with
              inputValue := "", isLoading := true, suggestedQuestions := [] },
          s.activeAgent, (configOf s.activeAgent).id)

/-- What the `await`ed transport produced: a thrown error (network failure
or `response.json()` failure), or a parsed JSON body. -/
inductive TransportOutcome where
  | thrown
  | replied (data : JsVal)

/-- The agent/error message appended by the completion phase
(`id: (Date.now() + 1).toString()`, `feedback: null`). -/
def agentReplyMessage (t : Nat) (txt : String) : Message :=
  { id := t + 1, text := txt, sender := Sender.agent, timestamp := t, feedback := none }

/-- The `catch` path plus the `finally`: append the connectivity apology to
the conversation the round-trip was issued against, then clear the flag. -/
def hardFailureStep (k : AgentKey) (t : Nat) (s : WidgetState) : WidgetState :=
  { appendTo k (agentReplyMessage t connFailureText) s with isLoading := false }

/-- The rest of `handleSendMessage` after the `await`, running against the
state current at completion time but writing through the `setMessages`
captured at submission time (conversation `k`). Covers: the `data.success`
branch with the inline normalization (whose thrown `TypeError`s land in the
`catch`), the soft-failure `else` branch, the `catch` branch for `thrown`,
and the `finally { setIsLoading(false) }` on every path. -/
def handleSendMessageComplete (k : AgentKey) (t : Nat) (out : TransportOutcome)
    (s : WidgetState) : WidgetState :=
  match out with
  | TransportOutcome.thrown => hardFailureStep k t s
  | TransportOutcome.replied data =>
    match memberAccess data "success" with
    | Except.error _ => hardFailureStep k t s
    | Except.ok succ =>
      if truthy succ = true then
        match normalize (getField data "response") with
        | Except.error _ => hardFailureStep k t s
        | Except.ok r =>
          let s1 := appendTo k (agentReplyMessage t r.text) s
          let s2 := if 0 < r.followups.length then { s1 with suggestedQuestions := r.followups }
                    else s1
          { s2 with isLoading := false }
      else
        { appendTo k (agentReplyMessage t softFailureText) s with isLoading := false }

/-- A state where the widget is open on the support tab with its welcome
message seeded (the state right after the user opens the widget). -/
def openedState : WidgetState := openWidget 0 initialState

/-- One submit/complete pair for the active conversation: the user message
is assigned `Date.now() = a` and the reply `Date.now() + 1 = b + 1`.
`handleSendMessageStart` with the fixed non-blank text always proceeds. -/
def runTrips : List (Nat × Nat × TransportOutcome) → WidgetState → WidgetState
  | [], s => s
  | (a, b, out) :: rest, s =>
    match handleSendMessageStart "hello" a s with
    | none => runTrips rest s
    | some (s1, k, _) => runTrips rest (handleSendMessageComplete k b out s1)

/-- A list of naturals is strictly increasing. -/
def strictIncr : List Nat → Bool
  | [] => true
  | [_] => true
  | a :: b :: rest => if a < b then strictIncr (b :: rest) else false

/-- Every entry is below the bound. -/
def allUnder (lo : Nat) (l : List Nat) : Bool :=
  l.all fun i => decide (i < lo)

/-- The clock discipline under which `Date.now()`-derived ids are strictly
increasing: each submission reads a clock at least the previous reply id
plus one (i.e. at least two ticks after the previous reply clock), and each
reply is clocked no earlier than its submission. -/
def WellSpaced : Nat → List (Nat × Nat × TransportOutcome) → Bool
  | _, [] => true
  | lo, (a, b, _) :: rest => decide (lo ≤ a) && decide (a ≤ b) && WellSpaced (b + 2) rest

/-- A value on which the normalization chain cannot raise a `TypeError`:
either a string or falsy (so it is never `.trim()`ed). -/
def safeVal : JsVal → Bool
  | vStr _ => true
  | v => !(truthy v)

/-- Every position the normalization consults holds a safe value. -/
def safePayload (raw : JsVal) : Bool :=
  safeVal (getField raw "response") &&
  safeVal (salesMain raw) &&
  safeVal (getField raw "message") &&
  safeVal (getField raw "text") &&
  (arrElems (getField raw "suggested_followups")).all safeVal &&
  (arrElems (optChain (getField raw "sales_guidance") "suggested_questions")).all safeVal

/-- The follow-up filter predicate as the source applies it to a string
entry: `q && q.trim().length > 0`. -/
def usable (q : String) : Bool :=
  truthy (vStr q) && decide (0 < (jsStringTrim q).length)

/-- A payload carrying both follow-up arrays (entries all strings). -/
def rawWithFollowups (xs ys : List String) : JsVal :=
  vObj [("response", vStr "ok"),
        ("suggested_followups", vArr (xs.map vStr)),
        ("sales_guidance", vObj [("suggested_questions", vArr (ys.map vStr))])]

/-- A payload carrying only the sales-guidance follow-up array. -/
def rawSalesOnly (ys : List String) : JsVal :=
  vObj [("response", vStr "ok"),
        ("sales_guidance", vObj [("suggested_questions", vArr (ys.map vStr))])]

/-! ### Helper lemmas -/

theorem trimChars_as_rdropWhile (m : List Char) :
    trimChars m = List.rdropWhile wsChar (List.dropWhile wsChar m) := rfl

theorem dropWhile_of_prefix {p : Char → Bool} {A M : List Char} (hAM : A <+: M)
    (hM : List.dropWhile p M = M) : List.dropWhile p A = A := by
  cases A with
  | nil => rfl
  | cons a A0 =>
    rcases hAM with ⟨tl, htl⟩
    rw [← htl] at hM
    rw [List.cons_append, List.dropWhile_cons] at hM
    rw [List.dropWhile_cons]
    cases hpa : p a with
    | true =>
      rw [hpa] at hM
      simp only [if_true] at hM
      have hle : (List.dropWhile p (A0 ++ tl)).length ≤ (A0 ++ tl).length :=
        (List.dropWhile_suffix p).sublist.length_le
      rw [hM] at hle
      simp at hle
    | false => simp [hpa]

theorem trimChars_idem (l : List Char) : trimChars (trimChars l) = trimChars l := by
  rw [trimChars_as_rdropWhile, trimChars_as_rdropWhile]
  have hM : List.dropWhile wsChar (List.dropWhile wsChar l) = List.dropWhile wsChar l :=
    List.dropWhile_idempotent wsChar l
  have hA : List.dropWhile wsChar (List.rdropWhile wsChar (List.dropWhile wsChar l)) =
      List.rdropWhile wsChar (List.dropWhile wsChar l) :=
    dropWhile_of_prefix (List.rdropWhile_prefix wsChar (List.dropWhile wsChar l)) hM
  rw [hA, List.rdropWhile_idempotent]

theorem jsStringTrim_idem (s : String) : jsStringTrim (jsStringTrim s) = jsStringTrim s := by
  simp [jsStringTrim, trimChars_idem]

theorem string_eq_empty_of_length {s : String} (h : s.length = 0) : s = "" := by
  cases s with
  | mk data =>
    have hd : data = [] := List.length_eq_zero.mp h
    rw [hd]

theorem msgLog_setLog_self (k : AgentKey) (l : List Message) (s : WidgetState) :
    msgLog k (setLog k l s) = l := by cases k <;> rfl

theorem msgLog_setLog_other (k : AgentKey) (l : List Message) (s : WidgetState) :
    msgLog (otherKey k) (setLog k l s) = msgLog (otherKey k) s := by cases k <;> rfl

theorem msgLog_appendTo_self (k : AgentKey) (m : Message) (s : WidgetState) :
    msgLog k (appendTo k m s) = msgLog k s ++ [m] := by cases k <;> rfl

theorem msgLog_appendTo_other (k : AgentKey) (m : Message) (s : WidgetState) :
    msgLog (otherKey k) (appendTo k m s) = msgLog (otherKey k) s := by cases k <;> rfl

theorem handleSendMessageStart_eq (txt : String) (t : Nat) (s : WidgetState)
    (h : ¬ jsStringTrim txt = "") :
    handleSendMessageStart txt t s =
      some ({ appendTo s.activeAgent
                { id := t, text := txt, sender := Sender.user, timestamp := t, feedback := none } s
                with inputValue := "", isLoading := true, suggestedQuestions := [] },
            s.activeAgent, (configOf s.activeAgent).id) := by
  simp [handleSendMessageStart, h]

/-- Every completion path appends exactly one agent message, with id `t + 1`,
to the conversation the round-trip was issued against, leaves the other
conversation log unchanged, clears the loading flag, and leaves the active
pointer alone. -/
theorem handleSendMessageComplete_spec (k : AgentKey) (t : Nat) (out : TransportOutcome)
    (s : WidgetState) :
    ∃ txt, msgLog k (handleSendMessageComplete k t out s) = msgLog k s ++ [agentReplyMessage t txt]
      ∧ msgLog (otherKey k) (handleSendMessageComplete k t out s) = msgLog (otherKey k) s
      ∧ (handleSendMessageComplete k t out s).isLoading = false
      ∧ (handleSendMessageComplete k t out s).activeAgent = s.activeAgent := by
  cases out with
  | thrown =>
    exact ⟨connFailureText, by cases k <;> refine ⟨rfl, rfl, ?_, ?_⟩ <;> first | rfl | trivial⟩
  | replied data =>
    simp only [handleSendMessageComplete, memberAccess]
    by_cases hnull : isNullish data = true
    · simp only [hnull, if_true]
      exact ⟨connFailureText, by cases k <;> refine ⟨rfl, rfl, ?_, ?_⟩ <;> first | rfl | trivial⟩
    · simp only [hnull, if_false, Bool.false_eq_true]
      by_cases hs : truthy (getField data "success") = true
      · simp only [hs, if_true]
        rcases hn : normalize (getField data "response") with _ | r
        · simp only [hn]
          exact ⟨connFailureText, by cases k <;> refine ⟨rfl, rfl, ?_, ?_⟩ <;> first | rfl | trivial⟩
        · simp only [hn]
          by_cases hf : 0 < r.followups.length
          · simp only [hf, if_true]
            exact ⟨r.text, by cases k <;> refine ⟨rfl, rfl, ?_, ?_⟩ <;> first | rfl | trivial⟩
          · simp only [hf, if_false]
            exact ⟨r.text, by cases k <;> refine ⟨rfl, rfl, ?_, ?_⟩ <;> first | rfl | trivial⟩
      · simp only [hs, if_false]
        exact ⟨softFailureText, by cases k <;> refine ⟨rfl, rfl, ?_, ?_⟩ <;> first | rfl | trivial⟩

theorem handleSendMessageComplete_ids (k : AgentKey) (t : Nat) (out : TransportOutcome)
    (s : WidgetState) :
    (msgLog k (handleSendMessageComplete k t out s)).map Message.id =
      (msgLog k s).map Message.id ++ [t + 1] := by
  obtain ⟨txt, h1, -, -, -⟩ := handleSendMessageComplete_spec k t out s
  simp [h1, agentReplyMessage]

theorem handleSendMessageComplete_activeAgent (k : AgentKey) (t : Nat) (out : TransportOutcome)
    (s : WidgetState) :
    (handleSendMessageComplete k t out s).activeAgent = s.activeAgent := by
  obtain ⟨txt, -, -, -, h4⟩ := handleSendMessageComplete_spec k t out s
  exact h4

/-- The completion phase commutes with changing the active pointer: it never
reads nor writes `activeAgent`, so a switch performed while the round-trip
is in flight does not reroute its writes. -/
theorem handleSendMessageComplete_comm_activeAgent (k j : AgentKey) (t : Nat)
    (out : TransportOutcome) (s : WidgetState) :
    handleSendMessageComplete k t out { s with activeAgent := j } =
      { handleSendMessageComplete k t out s with activeAgent := j } := by
  cases out with
  | thrown => cases k <;> rfl
  | replied data =>
    simp only [handleSendMessageComplete, memberAccess]
    by_cases hnull : isNullish data = true
    · simp only [hnull, if_true]
      cases k <;> rfl
    · simp only [hnull, if_false, Bool.false_eq_true]
      by_cases hs : truthy (getField data "success") = true
      · simp only [hs, if_true]
        rcases hn : normalize (getField data "response") with _ | r
        · simp only [hn]
          cases k <;> rfl
        · simp only [hn]
          by_cases hf : 0 < r.followups.length
          · simp only [hf, if_true]
            cases k <;> rfl
          · simp only [hf, if_false]
            cases k <;> rfl
      · simp only [hs, if_false]
        cases k <;> rfl

/-- A safe value is a string or falsy. -/
theorem safeVal_cases {v : JsVal} (h : safeVal v = true) :
    (∃ s, v = vStr s) ∨ truthy v = false := by
  cases v with
  | vStr s => exact Or.inl ⟨s, rfl⟩
  | vNum n => right; simpa [safeVal, Bool.not_eq_true'] using h
  | vBool b => right; simpa [safeVal, Bool.not_eq_true'] using h
  | vNull => right; rfl
  | vUndef => right; rfl
  | vArr xs => right; simpa [safeVal, Bool.not_eq_true'] using h
  | vObj fields => right; simpa [safeVal, Bool.not_eq_true'] using h

theorem filterUsable_ok_of_safe (xs : List JsVal) (h : xs.all safeVal = true) :
    ∃ l, filterUsable xs = Except.ok l := by
  induction xs with
  | nil => exact ⟨[], rfl⟩
  | cons q rest ih =>
    rw [List.all_cons, Bool.and_eq_true] at h
    obtain ⟨hq, hrest⟩ := h
    obtain ⟨l, hl⟩ := ih hrest
    by_cases ht : truthy q = true
    · rcases safeVal_cases hq with ⟨s, rfl⟩ | hf
      · exact ⟨(if 0 < (jsStringTrim s).length then s :: l else l),
          by simp only [filterUsable, ht, if_true, hl]⟩
      · exact absurd (ht.symm.trans hf) (by decide)
    · exact ⟨l, by simp only [filterUsable, ht, if_false]; exact hl⟩

theorem followupsFrom_ok_of_safe (v : JsVal) (h : (arrElems v).all safeVal = true) :
    ∃ l, followupsFrom v = Except.ok l := by
  unfold followupsFrom
  by_cases hc : truthy v = true ∧ isArray v = true
  · rw [if_pos hc]
    exact filterUsable_ok_of_safe _ h
  · rw [if_neg hc]
    exact ⟨[], rfl⟩

theorem extractFollowups_ok_of_safe (raw : JsVal)
    (h1 : (arrElems (getField raw "suggested_followups")).all safeVal = true)
    (h2 : (arrElems (optChain (getField raw "sales_guidance") "suggested_questions")).all
      safeVal = true) :
    ∃ l, extractFollowups raw = Except.ok l := by
  unfold extractFollowups
  by_cases hstr : jsTypeof raw = "string"
  · rw [if_pos hstr]
    exact ⟨[], rfl⟩
  · rw [if_neg hstr]
    by_cases hobj : truthy raw = true ∧ jsTypeof raw = "object"
    · rw [if_pos hobj]
      obtain ⟨f1, hf1⟩ := followupsFrom_ok_of_safe _ h1
      by_cases hlen : f1.length = 0
      · simp only [hf1, hlen, if_true]
        exact followupsFrom_ok_of_safe _ h2
      · simp only [hf1, hlen, if_false]
        exact ⟨f1, rfl⟩
    · rw [if_neg hobj]
      exact ⟨[], rfl⟩

theorem safeVal_extractText (raw : JsVal) (h : safePayload raw = true) :
    safeVal (extractText raw) = true := by
  simp only [safePayload, Bool.and_eq_true] at h
  obtain ⟨⟨⟨⟨⟨h1, h2⟩, h3⟩, h4⟩, -⟩, -⟩ := h
  simp only [extractText]
  by_cases hstr : jsTypeof raw = "string"
  · rw [if_pos hstr]
    cases raw <;> simp [jsTypeof] at hstr ⊢ <;> rfl
  · rw [if_neg hstr]
    by_cases hobj : truthy raw = true ∧ jsTypeof raw = "object"
    · rw [if_pos hobj]
      by_cases hmid : truthy (getField raw "response") = false ∧ truthy (salesMain raw) = true
      · rw [if_pos hmid, if_pos hmid.2]
        exact h2
      · rw [if_neg hmid]
        by_cases ht1 : truthy (getField raw "response") = true
        · rw [if_pos ht1]
          exact h1
        · rw [if_neg ht1]
          simp only [jsNullish]
          by_cases hm : isNullish (getField raw "message") = true
          · rw [if_pos hm]
            by_cases htx : isNullish (getField raw "text") = true
            · rw [if_pos htx, if_neg hstr]
              rfl
            · rw [if_neg htx]
              exact h4
          · rw [if_neg hm]
            exact h3
    · rw [if_neg hobj]
      rfl

/-! ### Claim theorems -/

/-- Claim C1, counterexample: normalization is NOT total. On the payload
`{response: 42}` the truthy non-string reaches `responseText.trim()` and the
inline normalization throws a TypeError instead of producing a reply. -/
theorem C1_counterexample : normalize (vObj [("response", vNum 42)]) = Except.error () := rfl

/-- Claim C1 (amended): normalization never throws and produces a reply
whose text is non-empty after trim for every payload whose consulted
positions (`response`, `sales_guidance.main_response`, `message`, `text`,
and the entries of the two follow-up arrays) hold strings or falsy values —
in particular for bare strings, `null`, empty objects, and objects with any
subset of the known fields holding strings. -/
theorem C1_normalize_total_on_safe (raw : JsVal) (h : safePayload raw = true) :
    ∃ r, normalize raw = Except.ok r ∧ jsStringTrim r.text ≠ "" := by
  have hsp := h
  simp only [safePayload, Bool.and_eq_true] at hsp
  obtain ⟨⟨-, h5⟩, h6⟩ := hsp
  obtain ⟨fw, hfw⟩ := extractFollowups_ok_of_safe raw h5 h6
  have hrt := safeVal_extractText raw h
  simp only [normalize, hfw]
  by_cases ht : truthy (extractText raw) = true
  · rcases safeVal_cases hrt with ⟨s, hseq⟩ | hf
    · rw [hseq] at ht ⊢
      rw [if_pos ht]
      simp only [jsTrim]
      refine ⟨_, rfl, ?_⟩
      by_cases hlen : (jsStringTrim s).length = 0
      · simp only [hlen, if_true]
        show jsStringTrim (jsStringTrim fallbackText) ≠ ""
        decide
      · simp only [hlen, if_false]
        rw [jsStringTrim_idem]
        intro he
        exact hlen (by rw [he]; rfl)
    · exact absurd (ht.symm.trans hf) (by decide)
  · rw [if_neg ht]
    refine ⟨{ text := jsStringTrim fallbackText, followups := fw }, rfl, ?_⟩
    show jsStringTrim (jsStringTrim fallbackText) ≠ ""
    decide

/-- Claim C1, witness. -/
theorem C1_witness :
    safePayload (vObj []) = true
    ∧ ∃ r, normalize (vObj []) = Except.ok r ∧ jsStringTrim r.text ≠ "" :=
  ⟨by decide, C1_normalize_total_on_safe (vObj []) (by decide)⟩

/-- Claim C2, counterexample: a whitespace-only `response` does NOT fall
through to `message`; it survives the truthiness checks and then forces the
final fallback, so the claimed result "hello" is not produced. -/
theorem C2_counterexample :
    normalize (vObj [("response", vStr " "), ("message", vStr "hello")]) =
      Except.ok { text := fallbackText, followups := [] }
    ∧ fallbackText ≠ "hello" := ⟨rfl, by decide⟩

/-- Claim C3, counterexample: a reply with `success: true` but NO `response`
field is handled by the success branch and yields the normalizer fallback
text, not the processing-apology message. -/
theorem C3_counterexample :
    (msgLog AgentKey.support (handleSendMessageComplete AgentKey.support 10
        (TransportOutcome.replied (vObj [("success", vBool true)])) openedState)).map
      Message.text = [SUPPORT_AGENT_CONFIG.welcomeMessage, fallbackText]
    ∧ fallbackText ≠ softFailureText := ⟨rfl, by decide⟩

/-- Claim C3 (amended): whenever the parsed transport reply has a FALSY
`success` field, exactly one agent message carrying the fixed
processing-apology text is appended to the issuing conversation, the other
conversation log is untouched, and the loading flag is cleared. (A truthy
`success` with a missing `response` instead produces the normalizer
fallback reply, per the counterexample.) -/
theorem C3_soft_failure_on_falsy_success (k : AgentKey) (t : Nat) (s : WidgetState)
    (data succ : JsVal) (hma : memberAccess data "success" = Except.ok succ)
    (hs : truthy succ = false) :
    msgLog k (handleSendMessageComplete k t (TransportOutcome.replied data) s) =
      msgLog k s ++ [agentReplyMessage t softFailureText]
    ∧ msgLog (otherKey k) (handleSendMessageComplete k t (TransportOutcome.replied data) s) =
      msgLog (otherKey k) s
    ∧ (handleSendMessageComplete k t (TransportOutcome.replied data) s).isLoading = false := by
  simp only [handleSendMessageComplete, hma, hs, Bool.false_eq_true, if_false]
  cases k <;> refine ⟨?_, ?_, ?_⟩ <;> first | rfl | trivial

/-- Claim C3, witness. -/
theorem C3_witness :
    memberAccess (vObj [("success", vBool false)]) "success" = Except.ok (vBool false)
    ∧ truthy (vBool false) = false
    ∧ msgLog AgentKey.sales (handleSendMessageComplete AgentKey.sales 7
        (TransportOutcome.replied (vObj [("success", vBool false)])) openedState) =
      msgLog AgentKey.sales openedState ++ [agentReplyMessage 7 softFailureText] :=
  ⟨rfl, rfl, (C3_soft_failure_on_falsy_success AgentKey.sales 7 openedState
    (vObj [("success", vBool false)]) (vBool false) rfl rfl).1⟩

/-- Claim C4: an in-flight round-trip issued against conversation `k`
always completes by appending exactly one agent message to `k`'s log, never
touches the other conversation's log, and its effect is oblivious to the
currently active pointer — switching the active agent mid-flight neither
loses nor misroutes the write. -/
theorem C4_inflight_routing (k j : AgentKey) (t : Nat) (out : TransportOutcome)
    (s : WidgetState) :
    (∃ m, m.sender = Sender.agent
        ∧ msgLog k (handleSendMessageComplete k t out s) = msgLog k s ++ [m])
    ∧ msgLog (otherKey k) (handleSendMessageComplete k t out s) = msgLog (otherKey k) s
    ∧ handleSendMessageComplete k t out { s with activeAgent := j } =
        { handleSendMessageComplete k t out s with activeAgent := j } := by
  obtain ⟨txt, h1, h2, -, -⟩ := handleSendMessageComplete_spec k t out s
  exact ⟨⟨agentReplyMessage t txt, rfl, h1⟩, h2,
    handleSendMessageComplete_comm_activeAgent k j t out s⟩

/-- Claim C5, counterexample: `handleSendMessage` contains no check of the
loading flag — a submission made while `isLoading` is already `true` is NOT
rejected: it appends the user message and issues the transport call. -/
theorem C5_counterexample :
    ({ openedState with isLoading := true } : WidgetState).isLoading = true
    ∧ (handleSendMessageStart "hi" 5 { openedState with isLoading := true }).isSome = true
    ∧ ((handleSendMessageStart "hi" 5 { openedState with isLoading := true }).map
        (fun p => (msgLog AgentKey.support p.fst).map Message.text)) =
      some [SUPPORT_AGENT_CONFIG.welcomeMessage, "hi"] := ⟨rfl, rfl, rfl⟩

/-- Claim C5 (amended): `submit(text)` is silently rejected (no message, no
transport call) exactly when the trimmed text is empty; the source performs
no Sending-state check in the handler itself — concurrent double-submission
is prevented only by the UI disabling the input, the send button, and the
quick-reply list while the (widget-global) loading flag is set. -/
theorem C5_blank_reject_iff (txt : String) (t : Nat) (s : WidgetState) :
    handleSendMessageStart txt t s = none ↔ jsStringTrim txt = "" := by
  unfold handleSendMessageStart
  by_cases h : jsStringTrim txt = "" <;> simp [h]

/-- Claim C5, witness. -/
theorem C5_witness : handleSendMessageStart "   " 3 openedState = none :=
  (C5_blank_reject_iff "   " 3 openedState).mpr (by decide)

/-- Claim C6, failing input: with the support conversation populated by its
welcome message, switching to the (empty) sales conversation seeds the
SALES welcome through the `setMessages` still bound to the pre-switch
active agent, overwriting the support log; the effect then seeds the sales
log. Both logs end up holding the sales welcome and the support history is
destroyed — contradicting the claim (and the source's own comment
"Initialize welcome message if no messages in target agent"). -/
theorem C6_switch_clobbers_previous_log :
    (msgLog AgentKey.support openedState).map Message.text = [SUPPORT_AGENT_CONFIG.welcomeMessage]
    ∧ (msgLog AgentKey.support (activate AgentKey.sales 3 openedState)).map Message.text =
        [SALES_AGENT_CONFIG.welcomeMessage]
    ∧ (msgLog AgentKey.sales (activate AgentKey.sales 3 openedState)).map Message.text =
        [SALES_AGENT_CONFIG.welcomeMessage]
    ∧ SALES_AGENT_CONFIG.welcomeMessage ≠ SUPPORT_AGENT_CONFIG.welcomeMessage :=
  ⟨rfl, rfl, rfl, by decide⟩

/-- Claim C8: when the transport throws, the completion appends exactly one
agent message with the fixed connectivity-apology text (distinct from the
soft-failure apology) to the issuing conversation, leaves the other log
untouched, and the loading flag ends `false` — as it does on EVERY
completion path, via the single `finally` step. -/
theorem C8_hard_failure_finalizes (k : AgentKey) (t : Nat) (s : WidgetState) :
    msgLog k (handleSendMessageComplete k t TransportOutcome.thrown s) =
      msgLog k s ++ [agentReplyMessage t connFailureText]
    ∧ msgLog (otherKey k) (handleSendMessageComplete k t TransportOutcome.thrown s) =
      msgLog (otherKey k) s
    ∧ (handleSendMessageComplete k t TransportOutcome.thrown s).isLoading = false
    ∧ connFailureText ≠ softFailureText
    ∧ ∀ out, (handleSendMessageComplete k t out s).isLoading = false := by
  refine ⟨by cases k <;> rfl, by cases k <;> rfl, by cases k <;> rfl, by decide, fun out => ?_⟩
  obtain ⟨txt, -, -, h3, -⟩ := handleSendMessageComplete_spec k t out s
  exact h3

/-- Claim C9, counterexample: ids come from `Date.now()`, so two
submissions within the same millisecond collide. Welcome id 1, then a
round-trip clocked (5, 5) and another submission clocked 5 produce ids
`[1, 5, 6, 5, 8]` — neither strictly increasing nor unique. -/
theorem C9_counterexample :
    ((msgLog AgentKey.support (runTrips
        [(5, 5, TransportOutcome.thrown), (5, 7, TransportOutcome.thrown)] openedState)).map
      Message.id) = [1, 5, 6, 5, 8]
    ∧ strictIncr [1, 5, 6, 5, 8] = false
    ∧ ¬ ([1, 5, 6, 5, 8] : List Nat).Nodup := ⟨rfl, rfl, by decide⟩

theorem jsStringTrim_fallback : jsStringTrim fallbackText = fallbackText := by decide

/-- Claim C2 (amended): the precedence order raw-as-string, `response`,
`sales_guidance.main_response`, `message`, `text`, fallback holds with JS
TRUTHINESS (non-empty-string) checks, untrimmed, at each intermediate step,
and one trimmed check at the end. Hence `response="A"` beats
`main_response="B"` (and any `message`), and a whitespace-only `response`
wins the chain and then forces the fallback — it does not fall through. -/
theorem C2_precedence_truthy (a b m : String) (h : a ≠ "") :
    normalize (vObj [("response", vStr a),
        ("sales_guidance", vObj [("main_response", vStr b)]),
        ("message", vStr m)]) =
      Except.ok { text := if (jsStringTrim a).length = 0 then fallbackText else jsStringTrim a
                  followups := [] } := by
  have ht : truthy (vStr a) = true := by simp [truthy, h]
  set raw := vObj [("response", vStr a),
      ("sales_guidance", vObj [("main_response", vStr b)]),
      ("message", vStr m)] with hraw
  have hJ : jsTypeof raw = "object" := rfl
  have h1 : getField raw "response" = vStr a := rfl
  have hfw : extractFollowups raw = Except.ok [] := rfl
  simp only [normalize, hfw, extractText]
  rw [if_neg (show ¬ jsTypeof raw = "string" by rw [hJ]; decide)]
  rw [if_pos (show truthy raw = true ∧ jsTypeof raw = "object" from ⟨rfl, hJ⟩)]
  rw [h1]
  rw [if_neg (show ¬ (truthy (vStr a) = false ∧ truthy (salesMain raw) = true) from
    fun hc => absurd (ht.symm.trans hc.1) (by decide))]
  rw [if_pos ht]
  simp only [jsTrim]
  rw [jsStringTrim_fallback]
  rw [if_pos ht]

/-- Claim C2, witness. -/
theorem C2_witness :
    ("A" : String) ≠ ""
    ∧ normalize (vObj [("response", vStr "A"),
        ("sales_guidance", vObj [("main_response", vStr "B")]),
        ("message", vStr "zzz")]) =
      Except.ok { text := if (jsStringTrim "A").length = 0 then fallbackText
                          else jsStringTrim "A"
                  followups := [] } :=
  ⟨by decide, C2_precedence_truthy "A" "B" "zzz" (by decide)⟩

/-- On a list of string entries, the source filter keeps exactly the
entries that are non-empty after trim (empty strings are falsy and dropped
without trimming), preserving their original untrimmed text. -/
theorem filterUsable_strings (xs : List String) :
    filterUsable (xs.map vStr) = Except.ok (xs.filter usable) := by
  induction xs with
  | nil => rfl
  | cons q rest ih =>
    by_cases hq : truthy (vStr q) = true
    · simp only [List.map_cons, filterUsable, hq, if_true, ih, List.filter_cons]
      simp [usable, hq]
    · simp only [List.map_cons, filterUsable, hq, if_false]
      rw [ih]
      have hu : usable q = false := by simp [usable, Bool.and_eq_true]; intro hc; exact absurd hc hq
      simp [List.filter_cons, hu]

/-- Claim C7: follow-up extraction returns `suggested_followups` filtered to
usable entries when at least one survives, otherwise
`sales_guidance.suggested_questions` filtered the same way, otherwise the
empty list (entries kept verbatim); and `usable` means non-empty after trim. -/
theorem C7_followup_precedence (xs ys : List String) :
    normalize (rawWithFollowups xs ys) =
      Except.ok { text := "ok"
                  followups := if (xs.filter usable).length = 0 then ys.filter usable
                               else xs.filter usable }
    ∧ normalize (rawSalesOnly ys) =
      Except.ok { text := "ok", followups := ys.filter usable }
    ∧ (∀ q, usable q = true ↔ jsStringTrim q ≠ "") := by
  refine ⟨?_, ?_, ?_⟩
  · have hf1 : followupsFrom (getField (rawWithFollowups xs ys) "suggested_followups") =
        Except.ok (xs.filter usable) := by
      show followupsFrom (vArr (xs.map vStr)) = _
      unfold followupsFrom
      rw [if_pos ⟨rfl, rfl⟩]
      exact filterUsable_strings xs
    have hf2 : followupsFrom (optChain (getField (rawWithFollowups xs ys) "sales_guidance")
        "suggested_questions") = Except.ok (ys.filter usable) := by
      show followupsFrom (vArr (ys.map vStr)) = _
      unfold followupsFrom
      rw [if_pos ⟨rfl, rfl⟩]
      exact filterUsable_strings ys
    have hfw : extractFollowups (rawWithFollowups xs ys) =
        Except.ok (if (xs.filter usable).length = 0 then ys.filter usable
                   else xs.filter usable) := by
      unfold extractFollowups
      rw [if_neg (show ¬ jsTypeof (rawWithFollowups xs ys) = "string" by
        rw [show jsTypeof (rawWithFollowups xs ys) = "object" from rfl]; decide)]
      rw [if_pos (show truthy (rawWithFollowups xs ys) = true
          ∧ jsTypeof (rawWithFollowups xs ys) = "object" from ⟨rfl, rfl⟩)]
      simp only [hf1]
      by_cases hlen : (xs.filter usable).length = 0
      · rw [if_pos hlen, hf2, if_pos hlen]
      · rw [if_neg hlen, if_neg hlen]
    have hrt : extractText (rawWithFollowups xs ys) = vStr "ok" := rfl
    simp only [normalize, hfw, hrt]
    rw [if_pos (show truthy (vStr "ok") = true from rfl)]
    simp only [jsTrim]
    rfl
  · have hf2 : followupsFrom (optChain (getField (rawSalesOnly ys) "sales_guidance")
        "suggested_questions") = Except.ok (ys.filter usable) := by
      show followupsFrom (vArr (ys.map vStr)) = _
      unfold followupsFrom
      rw [if_pos ⟨rfl, rfl⟩]
      exact filterUsable_strings ys
    have hfw : extractFollowups (rawSalesOnly ys) = Except.ok (ys.filter usable) := by
      have hstep : extractFollowups (rawSalesOnly ys) =
          followupsFrom (optChain (getField (rawSalesOnly ys) "sales_guidance")
            "suggested_questions") := rfl
      rw [hstep, hf2]
    have hrt : extractText (rawSalesOnly ys) = vStr "ok" := rfl
    simp only [normalize, hfw, hrt]
    rw [if_pos (show truthy (vStr "ok") = true from rfl)]
    simp only [jsTrim]
    rfl
  · intro q
    constructor
    · intro hu he
      rw [usable, Bool.and_eq_true] at hu
      have := of_decide_eq_true hu.2
      rw [he] at this
      exact absurd this (by decide)
    · intro hne
      have hq : q ≠ "" := fun he => hne (by rw [he]; rfl)
      have hlen : 0 < (jsStringTrim q).length := by
        rcases Nat.eq_zero_or_pos (jsStringTrim q).length with h0 | hpos
        · exact absurd (string_eq_empty_of_length h0) hne
        · exact hpos
      rw [usable, Bool.and_eq_true]
      exact ⟨by simp [truthy, hq], decide_eq_true hlen⟩

/-- Claim C7, witness. -/
theorem C7_witness :
    normalize (rawWithFollowups ["", "  ", "q1"] ["q1", "q2"]) =
      Except.ok { text := "ok"
                  followups := if ((["", "  ", "q1"].filter usable).length = 0)
                               then ["q1", "q2"].filter usable
                               else ["", "  ", "q1"].filter usable }
    ∧ normalize (rawSalesOnly ["q1", "q2"]) =
      Except.ok { text := "ok", followups := ["q1", "q2"].filter usable } :=
  ⟨(C7_followup_precedence ["", "  ", "q1"] ["q1", "q2"]).1,
    (C7_followup_precedence ["", "  ", "q1"] ["q1", "q2"]).2.1⟩

theorem strictIncr_append : ∀ (l : List Nat) (x : Nat), strictIncr l = true →
    (∀ i ∈ l, i < x) → strictIncr (l ++ [x]) = true
  | [], _, _, _ => rfl
  | [a], x, _, hx => by
    have hax : a < x := hx a (by simp)
    simp [strictIncr, hax]
  | a :: b :: rest, x, hl, hx => by
    simp only [strictIncr] at hl
    by_cases hab : a < b
    · have htail := strictIncr_append (b :: rest) x (by rwa [if_pos hab] at hl)
        (fun i hi => hx i (List.mem_cons_of_mem a hi))
      simp only [List.cons_append, strictIncr] at htail ⊢
      rw [if_pos hab]
      exact htail
    · rw [if_neg hab] at hl
      exact absurd hl (by decide)

theorem strictIncr_lt_head : ∀ (a : Nat) (l : List Nat), strictIncr (a :: l) = true →
    ∀ i ∈ l, a < i
  | a, [], _, i, hi => absurd hi (List.not_mem_nil i)
  | a, b :: rest, h, i, hi => by
    simp only [strictIncr] at h
    by_cases hab : a < b
    · rw [if_pos hab] at h
      rcases List.mem_cons.mp hi with rfl | hi2
      · exact hab
      · exact Nat.lt_trans hab (strictIncr_lt_head b rest h i hi2)
    · rw [if_neg hab] at h
      exact absurd h (by decide)

theorem strictIncr_tail {a : Nat} {l : List Nat} (h : strictIncr (a :: l) = true) :
    strictIncr l = true := by
  cases l with
  | nil => rfl
  | cons b rest =>
    simp only [strictIncr] at h
    by_cases hab : a < b
    · rwa [if_pos hab] at h
    · rw [if_neg hab] at h
      exact absurd h (by decide)

theorem strictIncr_pairwise : ∀ (l : List Nat), strictIncr l = true → l.Pairwise (· < ·)
  | [], _ => List.Pairwise.nil
  | a :: l, h =>
    List.Pairwise.cons (strictIncr_lt_head a l h) (strictIncr_pairwise l (strictIncr_tail h))

theorem strictIncr_nodup (l : List Nat) (h : strictIncr l = true) : l.Nodup :=
  (strictIncr_pairwise l h).imp fun hlt => Nat.ne_of_lt hlt

theorem msgLog_startedState (k : AgentKey) (m : Message) (s : WidgetState) :
    msgLog k ({ appendTo k m s with
        inputValue := "", isLoading := true, suggestedQuestions := [] }) =
      msgLog k s ++ [m] := by cases k <;> rfl

theorem activeAgent_startedState (k : AgentKey) (m : Message) (s : WidgetState) :
    ({ appendTo k m s with
        inputValue := "", isLoading := true, suggestedQuestions := [] } : WidgetState).activeAgent =
      s.activeAgent := by cases k <;> rfl

theorem runTrips_cons (a b : Nat) (out : TransportOutcome)
    (rest : List (Nat × Nat × TransportOutcome)) (s : WidgetState) :
    runTrips ((a, b, out) :: rest) s =
      runTrips rest (handleSendMessageComplete s.activeAgent b out
        ({ appendTo s.activeAgent
            { id := a, text := "hello", sender := Sender.user, timestamp := a, feedback := none } s
            with inputValue := "", isLoading := true, suggestedQuestions := [] })) := rfl

/-- Under the `WellSpaced` clock discipline, running any sequence of
round-trips keeps the active conversation's id list strictly increasing. -/
theorem runTrips_strictIncr (trips : List (Nat × Nat × TransportOutcome)) :
    ∀ (s : WidgetState) (lo : Nat), WellSpaced lo trips = true →
    strictIncr ((msgLog s.activeAgent s).map Message.id) = true →
    allUnder lo ((msgLog s.activeAgent s).map Message.id) = true →
    strictIncr ((msgLog s.activeAgent (runTrips trips s)).map Message.id) = true := by
  induction trips with
  | nil => exact fun s lo _ hsi _ => hsi
  | cons trip rest ih =>
    obtain ⟨a, b, out⟩ := trip
    intro s lo hws hsi hau
    simp only [WellSpaced, Bool.and_eq_true, decide_eq_true_eq] at hws
    obtain ⟨⟨hloa, hab⟩, hrest⟩ := hws
    rw [runTrips_cons]
    set um : Message :=
      { id := a, text := "hello", sender := Sender.user, timestamp := a, feedback := none } with hum
    set s1 : WidgetState := { appendTo s.activeAgent um s with
      inputValue := "", isLoading := true, suggestedQuestions := [] } with hs1
    set s2 : WidgetState := handleSendMessageComplete s.activeAgent b out s1 with hs2
    have hall : ∀ i ∈ (msgLog s.activeAgent s).map Message.id, i < lo := by
      simpa [allUnder, List.all_eq_true] using hau
    have hA1 : s1.activeAgent = s.activeAgent := activeAgent_startedState s.activeAgent um s
    have hA2 : s2.activeAgent = s.activeAgent := by
      rw [hs2, handleSendMessageComplete_activeAgent, hA1]
    have ids1 : (msgLog s.activeAgent s1).map Message.id =
        (msgLog s.activeAgent s).map Message.id ++ [a] := by
      rw [hs1, msgLog_startedState]
      simp [hum]
    have ids2 : (msgLog s.activeAgent s2).map Message.id =
        ((msgLog s.activeAgent s).map Message.id ++ [a]) ++ [b + 1] := by
      rw [hs2, handleSendMessageComplete_ids, ids1]
    have hsi2 : strictIncr ((msgLog s.activeAgent s2).map Message.id) = true := by
      rw [ids2]
      apply strictIncr_append
      · exact strictIncr_append _ a hsi
          (fun i hi => Nat.lt_of_lt_of_le (hall i hi) hloa)
      · intro i hi
        rcases List.mem_append.mp hi with hi1 | hi2
        · have hia : i < a := Nat.lt_of_lt_of_le (hall i hi1) hloa
          exact Nat.lt_succ_of_lt (Nat.lt_of_lt_of_le hia hab)
        · have : i = a := by simpa using hi2
          subst this
          exact Nat.lt_succ_of_le hab
    have hau2 : allUnder (b + 2) ((msgLog s.activeAgent s2).map Message.id) = true := by
      rw [ids2]
      simp only [allUnder, List.all_eq_true, decide_eq_true_eq]
      intro i hi
      rcases List.mem_append.mp hi with hi1 | hi2
      · rcases List.mem_append.mp hi1 with hi0 | hia
        · have hia0 : i < a := Nat.lt_of_lt_of_le (hall i hi0) hloa
          omega
        · have : i = a := by simpa using hia
          omega
      · have : i = b + 1 := by simpa using hi2
        omega
    have hres := ih s2 (b + 2) hrest (by rwa [hA2]) (by rwa [hA2])
    rwa [hA2] at hres

/-- Claim C9 (amended): within one conversation, message ids — the welcome
id 1, user ids `Date.now()`, reply ids `Date.now() + 1` — are unique and
strictly increasing PROVIDED the wall clock is well spaced: each submission
reads a clock at least two past the previous reply clock (and past the
welcome id), and each reply is clocked no earlier than its submission.
Without that clock hypothesis the property fails (see the counterexample). -/
theorem C9_ids_monotone (trips : List (Nat × Nat × TransportOutcome)) (s : WidgetState)
    (lo : Nat) (h1 : WellSpaced lo trips = true)
    (h2 : strictIncr ((msgLog s.activeAgent s).map Message.id) = true)
    (h3 : allUnder lo ((msgLog s.activeAgent s).map Message.id) = true) :
    strictIncr ((msgLog s.activeAgent (runTrips trips s)).map Message.id) = true
    ∧ ((msgLog s.activeAgent (runTrips trips s)).map Message.id).Nodup := by
  have h := runTrips_strictIncr trips s lo h1 h2 h3
  exact ⟨h, strictIncr_nodup _ h⟩

/-- Claim C9, witness. -/
theorem C9_witness :
    WellSpaced 2 [(5, 6, TransportOutcome.thrown), (9, 9, TransportOutcome.thrown)] = true
    ∧ strictIncr ((msgLog openedState.activeAgent openedState).map Message.id) = true
    ∧ allUnder 2 ((msgLog openedState.activeAgent openedState).map Message.id) = true
    ∧ (strictIncr ((msgLog openedState.activeAgent (runTrips
          [(5, 6, TransportOutcome.thrown), (9, 9, TransportOutcome.thrown)]
          openedState)).map Message.id) = true
      ∧ ((msgLog openedState.activeAgent (runTrips
          [(5, 6, TransportOutcome.thrown), (9, 9, TransportOutcome.thrown)]
          openedState)).map Message.id).Nodup) :=
  ⟨by decide, by decide, by decide,
    C9_ids_monotone [(5, 6, TransportOutcome.thrown), (9, 9, TransportOutcome.thrown)]
      openedState 2 (by decide) (by decide) (by decide)⟩

/-- Claim C10: the loading flag and the suggestion list are single
widget-global `useState` values: the state fields the view reads do not
depend on which agent is active, every agent switch overwrites the
suggestion list with the target agent's static suggestions, and a
submission sets the one loading flag and clears the one suggestion list
observed by both tabs. -/
theorem C10_global_ui_state (agent : AgentKey) (t : Nat) (txt : String) (s : WidgetState)
    (h : jsStringTrim txt ≠ "") :
    (handleAgentSwitch agent t s).suggestedQuestions = (configOf agent).suggestions
    ∧ (∀ j, ({ s with activeAgent := j } : WidgetState).suggestedQuestions =
          s.suggestedQuestions
        ∧ ({ s with activeAgent := j } : WidgetState).isLoading = s.isLoading)
    ∧ ∃ s1, handleSendMessageStart txt t s =
          some (s1, s.activeAgent, (configOf s.activeAgent).id)
        ∧ s1.isLoading = true ∧ s1.suggestedQuestions = [] := by
  refine ⟨?_, fun j => ⟨rfl, rfl⟩, ?_⟩
  · simp only [handleAgentSwitch]
    by_cases hlen : (msgLog agent s).length = 0
    · rw [if_pos hlen]
    · rw [if_neg hlen]
  · exact ⟨_, handleSendMessageStart_eq txt t s h, rfl, rfl⟩

/-- Claim C10, witness. -/
theorem C10_witness :
    jsStringTrim "hi" ≠ ""
    ∧ ((handleAgentSwitch AgentKey.sales 0 openedState).suggestedQuestions =
        (configOf AgentKey.sales).suggestions
      ∧ (∀ j, ({ openedState with activeAgent := j } : WidgetState).suggestedQuestions =
            openedState.suggestedQuestions
          ∧ ({ openedState with activeAgent := j } : WidgetState).isLoading =
            openedState.isLoading)
      ∧ ∃ s1, handleSendMessageStart "hi" 0 openedState =
            some (s1, openedState.activeAgent, (configOf openedState.activeAgent).id)
          ∧ s1.isLoading = true ∧ s1.suggestedQuestions = []) :=
  ⟨by decide, C10_global_ui_state AgentKey.sales 0 "hi" openedState (by decide)⟩

end Chat
